import Mathlib

/-!
Shallow embedding of `src/LED_INA226_Tester.ino` (Neurotech-Hub/LED_INA226_Tester).

The sketch is a single-threaded polling loop (`loop()`):
  * command intake: a newline-terminated line is read, trimmed, parsed with
    Arduino `String::toFloat`, and range-checked against `[0, MAX_CURRENT_MA]`;
  * control tick (every `CONTROL_INTERVAL` ms, only when `targetCurrent_mA > 0`):
    reads the INA226 current, performs the overcurrent safety shutdown,
    computes the proportional adjustment `(int)(error * Kp)`, applies it
    through `constrain`, and prints telemetry with a header every 10 lines.

C++ `float` arithmetic is modelled over `ℚ`; the C cast `(int)` truncates
toward zero, modelled by `ratTruncToInt`.  External I/O (serial prints,
`analogWrite`) is modelled as a list of emitted events.  The INA226 reading
of a tick is a parameter `measured` of the tick function.
-/

/-- Truncation toward zero of a rational, the semantics of the C cast
`(int)x` applied to a `float`. -/
def ratTruncToInt (q : ℚ) : ℤ := if 0 ≤ q then ⌊q⌋ else -⌊-q⌋

/-- `DAC_MIN` from the sketch. -/
def DAC_MIN : ℤ := 0

/-- `DAC_MAX` from the sketch (10-bit DAC). -/
def DAC_MAX : ℤ := 1023

/-- `MAX_CURRENT_MA` from the sketch: absolute maximum current in mA. -/
def MAX_CURRENT_MA : ℚ := 1400

/-- `Kp` from the sketch: proportional gain 0.1. -/
def Kp : ℚ := 1/10

/-- `MIN_ADJUSTMENT` from the sketch: minimum DAC adjustment 1.0. -/
def MIN_ADJUSTMENT : ℚ := 1

/-- Arduino `constrain(amt, low, high)`:
`amt < low ? low : (amt > high ? high : amt)`. -/
def constrain (amt low high : ℤ) : ℤ :=
  if amt < low then low else if amt > high then high else amt

/-- The sketch's global mutable state: `targetCurrent_mA`, `currentDacValue`,
`headerPrinted`, `lineCount`.  (`lastControlTime` is timing only; the tick
cadence is abstracted into "a tick fires".) -/
structure SysState where
  targetCurrent_mA : ℚ
  currentDacValue : ℤ
  headerPrinted : Bool
  lineCount : ℕ
  deriving DecidableEq, Repr

/-- State at power-up (`float targetCurrent_mA = 0; int currentDacValue = 0;
bool headerPrinted = false; int lineCount = 0;`). -/
def initState : SysState :=
  { targetCurrent_mA := 0, currentDacValue := 0
    headerPrinted := false, lineCount := 0 }

/-- Observable effects of one step of `loop()`: DAC writes (`analogWrite` on
`DAC_PIN`) and the serial prints the claims talk about. -/
inductive Emit where
  /-- `analogWrite(DAC_PIN, v)` -/
  | dacWrite (v : ℤ)
  /-- `Serial.println("LED turned off")` -/
  | msgOff
  /-- `Serial.print("Target current set to: ...")` -/
  | msgTargetSet (t : ℚ)
  /-- `Serial.print("Invalid current value. ...")` -/
  | msgInvalid
  /-- `Serial.println("SAFETY SHUTDOWN: ...")` -/
  | msgSafety
  /-- the telemetry header line -/
  | header
  /-- one telemetry data line (DAC value and measured current shown;
  the other columns are fresh sensor reads not part of the model state) -/
  | dataLine (dac : ℤ) (current : ℚ)
  deriving DecidableEq, Repr

/-- Is an emitted event a DAC write? -/
def Emit.isDacWrite : Emit → Bool
  | .dacWrite _ => true
  | _ => false

/-- The value of a DAC write (0 otherwise); used only to state range bounds. -/
def Emit.dacValue : Emit → ℤ
  | .dacWrite v => v
  | _ => 0

/-- Is an emitted event the telemetry header? -/
def Emit.isHeader : Emit → Bool
  | .header => true
  | _ => false

/-- Is an emitted event a telemetry data line? -/
def Emit.isData : Emit → Bool
  | .dataLine _ _ => true
  | _ => false

/-!  ### Command intake: `String::toFloat` and the command branch  -/

/-- Numeric value of a decimal digit, `none` for non-digits. -/
def digitVal (c : Char) : Option ℕ :=
  if '0' ≤ c ∧ c ≤ '9' then some (c.toNat - '0'.toNat) else none

/-- Consume leading decimal digits: accumulated value, number of digits
consumed, rest of the input. -/
def parseDigits : List Char → ℕ → ℕ × ℕ × List Char
  | [], acc => (acc, 0, [])
  | c :: cs, acc =>
    match digitVal c with
    | some d =>
      let (v, n, rest) := parseDigits cs (acc * 10 + d)
      (v, n + 1, rest)
    | none => (acc, 0, c :: cs)

/-- Arduino `String::toFloat` (a thin wrapper over C `strtod`, cast to
`float`, returning `0` when no conversion can be performed), modelled over ℚ
for plain decimal inputs `[+|-]digits[.digits]`: an optional sign, an integer
part and an optional fraction part are consumed; trailing garbage is ignored;
if not a single digit is consumed the result is `0`.  (The exponent notation
of `strtod` is not modelled; no claim involves it.) -/
def toFloat (input : List Char) : ℚ :=
  let (sign, afterSign) :=
    match input with
    | '-' :: cs => ((-1 : ℚ), cs)
    | '+' :: cs => ((1 : ℚ), cs)
    | cs => ((1 : ℚ), cs)
  let (ip, ipCount, afterInt) := parseDigits afterSign 0
  let (fp, fpCount, _) :=
    match afterInt with
    | '.' :: cs => parseDigits cs 0
    | _ => (0, 0, [])
  if ipCount = 0 ∧ fpCount = 0 then 0
  else sign * ((ip : ℚ) + (fp : ℚ) / (10 : ℚ) ^ fpCount)

/-- Arduino `String::trim`: strip leading and trailing whitespace. -/
def trim (input : List Char) : List Char :=
  ((input.dropWhile Char.isWhitespace).reverse.dropWhile Char.isWhitespace).reverse

/-- The command-intake branch of `loop()` (lines 85–114): trim the received
line, parse it with `toFloat`, and either accept the new target (writing the
DAC immediately when it is 0) or print the rejection message. -/
def processCommand (input : List Char) (s : SysState) : SysState × List Emit :=
  let newTarget := toFloat (trim input)
  if 0 ≤ newTarget ∧ newTarget ≤ MAX_CURRENT_MA then
    if newTarget = 0 then
      ({ s with targetCurrent_mA := 0, currentDacValue := 0 },
       [Emit.dacWrite 0, Emit.msgOff])
    else
      ({ s with targetCurrent_mA := newTarget }, [Emit.msgTargetSet newTarget])
  else
    (s, [Emit.msgInvalid])

/-!  ### The control tick  -/

/-- One control tick (lines 117–170 of `loop()`), fired when the control
interval has elapsed; `measured` is the fresh `INA.getCurrent_mA()` reading
consumed when `targetCurrent_mA > 0`.  Mirrors the source: safety shutdown
with early `return`, proportional adjustment behind the dead-band, telemetry
with header reprinting. -/
def controlTick (measured : ℚ) (s : SysState) : SysState × List Emit :=
  if s.targetCurrent_mA > 0 then
    if measured > MAX_CURRENT_MA then
      ({ s with targetCurrent_mA := 0, currentDacValue := 0 },
       [Emit.dacWrite 0, Emit.msgSafety])
    else
      let error := s.targetCurrent_mA - measured
      let adjustment := ratTruncToInt (error * Kp)
      let (dac, dacEmits) :=
        if MIN_ADJUSTMENT ≤ (adjustment.natAbs : ℚ) then
          let d := constrain (s.currentDacValue + adjustment) DAC_MIN DAC_MAX
          (d, [Emit.dacWrite d])
        else
          (s.currentDacValue, [])
      let (hp, headerEmits) :=
        if ¬ s.headerPrinted ∨ s.lineCount % 10 = 0 then
          (true, [Emit.header])
        else
          (s.headerPrinted, [])
      ({ s with currentDacValue := dac, headerPrinted := hp,
                lineCount := s.lineCount + 1 },
       dacEmits ++ headerEmits ++ [Emit.dataLine dac measured])
  else
    (s, [])

/-!  ### Whole-run semantics  -/

/-- One externally triggered step of `loop()`: either a serial line arrives
and is processed, or the control interval elapses and a tick runs with the
given sensor reading. -/
inductive Input where
  | cmd (line : List Char)
  | tick (measured : ℚ)

/-- Execute one input against the state. -/
def step (i : Input) (s : SysState) : SysState × List Emit :=
  match i with
  | .cmd line => processCommand line s
  | .tick measured => controlTick measured s

/-- Execute a list of inputs, concatenating the emitted events. -/
def run (s : SysState) : List Input → SysState × List Emit
  | [] => (s, [])
  | i :: is =>
    let (s', es) := step i s
    let (s'', es') := run s' is
    (s'', es ++ es')


/-!  ### Closed-loop simulation and telemetry stream (for C6, C7, C10)  -/

/-- Iterated control ticks against a sensor model `f`: each tick's INA226
reading is `f` applied to the DAC value the tick starts from
(`measured = f(currentDacValue)`), as in the spec's testable property. -/
def sensorRun (f : ℤ → ℚ) (s : SysState) : ℕ → SysState
  | 0 => s
  | n + 1 =>
    (controlTick (f ((sensorRun f s n).currentDacValue)) (sensorRun f s n)).1

/-- A steep monotonically increasing sensor model: 25 mA per DAC count. -/
def exSensor (d : ℤ) : ℚ := 25 * d

/-- A regulating start state: target 100 mA, DAC 0. -/
def exStart : SysState :=
  { targetCurrent_mA := 100, currentDacValue := 0
    headerPrinted := true, lineCount := 1 }

/-- The telemetry part of an emitted stream: header and data lines only. -/
def teleOf (es : List Emit) : List Emit :=
  es.filter (fun e => e.isHeader || e.isData)

/-- The header/data discipline of the telemetry stream, with `k` the number
of data lines already printed: a header line appears immediately before a
data line exactly when that data line's index is a multiple of 10 (so the
very first data line, index 0, is preceded by a header, and exactly 10 data
lines separate consecutive headers). -/
inductive TelePattern : ℕ → List Emit → Prop where
  | nil (k : ℕ) : TelePattern k []
  | withHeader (k : ℕ) (dac : ℤ) (cur : ℚ) (rest : List Emit) :
      k % 10 = 0 → TelePattern (k + 1) rest →
      TelePattern k (Emit.header :: Emit.dataLine dac cur :: rest)
  | noHeader (k : ℕ) (dac : ℤ) (cur : ℚ) (rest : List Emit) :
      k % 10 ≠ 0 → TelePattern (k + 1) rest →
      TelePattern k (Emit.dataLine dac cur :: rest)

/-!  ## Theorems  -/

/-- **C1**: in every control tick that runs while `targetCurrent_mA > 0`, if
the measured current exceeds `MAX_CURRENT_MA` then by the end of that same
tick `targetCurrent_mA = 0`, `currentDacValue = 0`, and `0` is written to the
DAC, regardless of prior state. -/
theorem c1_safety_shutdown (s : SysState) (m : ℚ)
    (ht : s.targetCurrent_mA > 0) (hm : m > MAX_CURRENT_MA) :
    (controlTick m s).1.targetCurrent_mA = 0 ∧
    (controlTick m s).1.currentDacValue = 0 ∧
    Emit.dacWrite 0 ∈ (controlTick m s).2 := by
  simp [controlTick, ht, hm]

/-- Witness for C1: target 500 mA, DAC 300, measured 1450 mA. -/
theorem c1_safety_shutdown_witness :
    ((controlTick 1450 ⟨500, 300, true, 7⟩).1.targetCurrent_mA = 0 ∧
     (controlTick 1450 ⟨500, 300, true, 7⟩).1.currentDacValue = 0 ∧
     Emit.dacWrite 0 ∈ (controlTick 1450 ⟨500, 300, true, 7⟩).2) :=
  c1_safety_shutdown ⟨500, 300, true, 7⟩ 1450 (by norm_num)
    (by norm_num [MAX_CURRENT_MA])

/-- **C2**: every value written to the DAC (`analogWrite` on `DAC_PIN`), on
every path of a `loop()` step — command handling, safety shutdown, control
adjustment — satisfies `DAC_MIN ≤ value ≤ DAC_MAX` (0 ≤ value ≤ 1023), in
every state. -/
theorem c2_dac_writes_in_range (i : Input) (s : SysState) (e : Emit)
    (he : e ∈ (step i s).2) (hw : e.isDacWrite = true) :
    DAC_MIN ≤ e.dacValue ∧ e.dacValue ≤ DAC_MAX := by
  have hconstr : ∀ x : ℤ,
      DAC_MIN ≤ constrain x DAC_MIN DAC_MAX ∧
      constrain x DAC_MIN DAC_MAX ≤ DAC_MAX := by
    intro x
    simp only [constrain, DAC_MIN, DAC_MAX]
    split_ifs <;> omega
  cases i with
  | cmd line =>
    simp only [step, processCommand] at he
    split_ifs at he with h1 h2 <;>
      simp only [List.mem_cons, List.not_mem_nil, or_false] at he
    · rcases he with rfl | rfl
      · simp [Emit.dacValue, DAC_MIN, DAC_MAX]
      · simp [Emit.isDacWrite] at hw
    · rcases he with rfl
      simp [Emit.isDacWrite] at hw
    · rcases he with rfl
      simp [Emit.isDacWrite] at hw
  | tick m =>
    simp only [step, controlTick] at he
    split_ifs at he with h1 h2 h3 h4 h5 <;>
      simp only [List.cons_append, List.nil_append, List.mem_cons,
        List.not_mem_nil, or_false] at he
    · rcases he with rfl | rfl
      · simp [Emit.dacValue, DAC_MIN, DAC_MAX]
      · simp [Emit.isDacWrite] at hw
    · rcases he with rfl | rfl | rfl
      · simpa [Emit.dacValue] using hconstr _
      · simp [Emit.isDacWrite] at hw
      · simp [Emit.isDacWrite] at hw
    · rcases he with rfl | rfl
      · simpa [Emit.dacValue] using hconstr _
      · simp [Emit.isDacWrite] at hw
    · rcases he with rfl | rfl
      · simp [Emit.isDacWrite] at hw
      · simp [Emit.isDacWrite] at hw
    · rcases he with rfl
      simp [Emit.isDacWrite] at hw

/-- Witness for C2: the safety-shutdown write at target 500 mA, measured
1450 mA. -/
theorem c2_dac_writes_in_range_witness :
    Emit.dacWrite 0 ∈ (step (Input.tick 1450) ⟨500, 300, true, 7⟩).2 ∧
    (Emit.dacWrite 0).isDacWrite = true ∧
    (DAC_MIN ≤ (Emit.dacWrite 0).dacValue ∧
     (Emit.dacWrite 0).dacValue ≤ DAC_MAX) :=
  ⟨by decide, by decide,
   c2_dac_writes_in_range (Input.tick 1450) ⟨500, 300, true, 7⟩
     (Emit.dacWrite 0) (by decide) (by decide)⟩

/-- **C3, counterexample**: the non-numeric command line `"abc"` received
while `targetCurrent_mA = 200` does **not** leave the state unchanged and
does **not** emit the rejection message: Arduino `toFloat` parses `"abc"`
as `0`, which passes the range check and is handled as the off command
(target and DAC forced to 0, a `0` DAC write, `"LED turned off"` printed). -/
theorem c3_counterexample :
    (processCommand ("abc".toList) ⟨200, 50, true, 7⟩).1 ≠ ⟨200, 50, true, 7⟩ ∧
    Emit.msgInvalid ∉ (processCommand ("abc".toList) ⟨200, 50, true, 7⟩).2 ∧
    (processCommand ("abc".toList) ⟨200, 50, true, 7⟩) =
      (⟨0, 0, true, 7⟩, [Emit.dacWrite 0, Emit.msgOff]) := by
  decide

/-- **C3, amended**: a command line whose `toFloat` value is outside
`[0, MAX_CURRENT_MA]` (e.g. a negative number or one above 1400) is rejected
with the invalid-value message, emits no DAC write, and leaves all state
unchanged; but a non-numeric line is *not* rejected: `toFloat` parses it as
`0`, so it is processed as a valid `0` command — target and DAC are set to
`0`, `0` is written to the DAC and the off message is printed. -/
theorem c3_rejection_scope (input : List Char) (s : SysState) :
    (¬ (0 ≤ toFloat (trim input) ∧ toFloat (trim input) ≤ MAX_CURRENT_MA) →
      processCommand input s = (s, [Emit.msgInvalid])) ∧
    (toFloat (trim input) = 0 →
      processCommand input s =
        ({ s with targetCurrent_mA := 0, currentDacValue := 0 },
         [Emit.dacWrite 0, Emit.msgOff])) := by
  constructor
  · intro h
    simp only [processCommand, if_neg h]
  · intro h
    simp only [processCommand, h]
    norm_num [MAX_CURRENT_MA]

/-- Witness for C3: the out-of-range command `"2000"` is rejected leaving the
state untouched, and the non-numeric command `"abc"` is handled as the off
command. -/
theorem c3_rejection_scope_witness :
    (¬ (0 ≤ toFloat (trim "2000".toList) ∧
        toFloat (trim "2000".toList) ≤ MAX_CURRENT_MA) ∧
     processCommand "2000".toList ⟨200, 50, true, 7⟩ =
       (⟨200, 50, true, 7⟩, [Emit.msgInvalid])) ∧
    (toFloat (trim "abc".toList) = 0 ∧
     processCommand "abc".toList ⟨200, 50, true, 7⟩ =
       (⟨0, 0, true, 7⟩, [Emit.dacWrite 0, Emit.msgOff])) := by
  have h2000 : toFloat (trim "2000".toList) = 2000 := by
    simp +decide [toFloat, trim, parseDigits, digitVal]
  refine ⟨⟨?_, ?_⟩, ?_, ?_⟩
  · rw [h2000]; norm_num [MAX_CURRENT_MA]
  · exact (c3_rejection_scope "2000".toList ⟨200, 50, true, 7⟩).1
      (by rw [h2000]; norm_num [MAX_CURRENT_MA])
  · decide
  · exact (c3_rejection_scope "abc".toList ⟨200, 50, true, 7⟩).2 (by decide)

/-- **C4**: in a regulating tick without safety trip, if the truncated
adjustment `(int)((target − measured) * Kp)` has absolute value strictly
below `MIN_ADJUSTMENT`, the DAC value is unchanged and no DAC write occurs;
if its absolute value equals `MIN_ADJUSTMENT` exactly, the adjustment is
applied (the dead-band threshold is inclusive). -/
theorem c4_dead_band (s : SysState) (m : ℚ)
    (ht : s.targetCurrent_mA > 0) (hm : ¬ m > MAX_CURRENT_MA) :
    (((ratTruncToInt ((s.targetCurrent_mA - m) * Kp)).natAbs : ℚ) <
        MIN_ADJUSTMENT →
      (controlTick m s).1.currentDacValue = s.currentDacValue ∧
      ∀ v, Emit.dacWrite v ∉ (controlTick m s).2) ∧
    (((ratTruncToInt ((s.targetCurrent_mA - m) * Kp)).natAbs : ℚ) =
        MIN_ADJUSTMENT →
      (controlTick m s).1.currentDacValue =
        constrain
          (s.currentDacValue + ratTruncToInt ((s.targetCurrent_mA - m) * Kp))
          DAC_MIN DAC_MAX) := by
  constructor
  · intro hlt
    have hdac : (controlTick m s).1.currentDacValue = s.currentDacValue := by
      simp only [controlTick, if_pos ht, if_neg hm, if_neg (not_le.mpr hlt)]
    refine ⟨hdac, ?_⟩
    intro v
    simp only [controlTick, if_pos ht, if_neg hm, if_neg (not_le.mpr hlt)]
    split_ifs <;> simp
  · intro heq
    simp only [controlTick, if_pos ht, if_neg hm, if_pos (le_of_eq heq.symm)]

/-- Witness for C4: target 100 mA, measured 99.5 mA gives raw adjustment
0.05, truncated to 0, strictly inside the dead-band: no change, no write;
target 500 mA, measured 490 mA gives adjustment exactly 1 = MIN_ADJUSTMENT:
applied. -/
theorem c4_dead_band_witness :
    ((100 : ℚ) > 0 ∧ ¬ (199/2 : ℚ) > MAX_CURRENT_MA ∧
     ((ratTruncToInt (((100 : ℚ) - 199/2) * Kp)).natAbs : ℚ) < MIN_ADJUSTMENT ∧
     (controlTick (199/2) ⟨100, 37, true, 3⟩).1.currentDacValue = 37 ∧
     ∀ v, Emit.dacWrite v ∉ (controlTick (199/2) ⟨100, 37, true, 3⟩).2) ∧
    ((500 : ℚ) > 0 ∧ ¬ (490 : ℚ) > MAX_CURRENT_MA ∧
     ((ratTruncToInt (((500 : ℚ) - 490) * Kp)).natAbs : ℚ) = MIN_ADJUSTMENT ∧
     (controlTick 490 ⟨500, 37, true, 3⟩).1.currentDacValue =
       constrain (37 + ratTruncToInt (((500 : ℚ) - 490) * Kp))
         DAC_MIN DAC_MAX) := by
  have h1 : ((100 : ℚ) - 199/2) * Kp = 1/20 := by norm_num [Kp]
  have h2 : ratTruncToInt (1/20 : ℚ) = 0 := by norm_num [ratTruncToInt]
  have h3 : ((500 : ℚ) - 490) * Kp = 1 := by norm_num [Kp]
  have h4 : ratTruncToInt (1 : ℚ) = 1 := by norm_num [ratTruncToInt]
  have hlt : ((ratTruncToInt (((100 : ℚ) - 199/2) * Kp)).natAbs : ℚ) <
      MIN_ADJUSTMENT := by
    rw [h1, h2]; norm_num [MIN_ADJUSTMENT]
  have heq : ((ratTruncToInt (((500 : ℚ) - 490) * Kp)).natAbs : ℚ) =
      MIN_ADJUSTMENT := by
    rw [h3, h4]; norm_num [MIN_ADJUSTMENT]
  refine ⟨⟨by norm_num, by norm_num [MAX_CURRENT_MA], hlt, ?_, ?_⟩,
          by norm_num, by norm_num [MAX_CURRENT_MA], heq, ?_⟩
  · exact ((c4_dead_band ⟨100, 37, true, 3⟩ (199/2) (by norm_num)
      (by norm_num [MAX_CURRENT_MA])).1 hlt).1
  · exact ((c4_dead_band ⟨100, 37, true, 3⟩ (199/2) (by norm_num)
      (by norm_num [MAX_CURRENT_MA])).1 hlt).2
  · exact (c4_dead_band ⟨500, 37, true, 3⟩ 490 (by norm_num)
      (by norm_num [MAX_CURRENT_MA])).2 heq

/-- **C5**: in a regulating tick without safety trip where the dead-band is
passed, the new DAC value is the old one plus the truncated adjustment
`(int)((target − measured) * Kp)`, clamped to `[DAC_MIN, DAC_MAX]`; in
particular the raw adjustment for target 500 mA, measured 300 mA, Kp = 0.1
is exactly +20. -/
theorem c5_adjustment_applied (s : SysState) (m : ℚ)
    (ht : s.targetCurrent_mA > 0) (hm : ¬ m > MAX_CURRENT_MA)
    (hdb : MIN_ADJUSTMENT ≤
      ((ratTruncToInt ((s.targetCurrent_mA - m) * Kp)).natAbs : ℚ)) :
    (controlTick m s).1.currentDacValue =
      constrain
        (s.currentDacValue + ratTruncToInt ((s.targetCurrent_mA - m) * Kp))
        DAC_MIN DAC_MAX ∧
    Emit.dacWrite
        (constrain
          (s.currentDacValue + ratTruncToInt ((s.targetCurrent_mA - m) * Kp))
          DAC_MIN DAC_MAX) ∈ (controlTick m s).2 ∧
    ratTruncToInt (((500 : ℚ) - 300) * Kp) = 20 := by
  refine ⟨?_, ?_, by norm_num [ratTruncToInt, Kp]⟩
  · simp only [controlTick, if_pos ht, if_neg hm, if_pos hdb]
  · simp only [controlTick, if_pos ht, if_neg hm, if_pos hdb]
    split_ifs <;> simp

/-- Witness for C5: target 500 mA, measured 300 mA, DAC 100: the adjustment
is +20 and the DAC value becomes 120. -/
theorem c5_adjustment_applied_witness :
    ((500 : ℚ) > 0 ∧ ¬ (300 : ℚ) > MAX_CURRENT_MA ∧
     MIN_ADJUSTMENT ≤
       ((ratTruncToInt (((500 : ℚ) - 300) * Kp)).natAbs : ℚ)) ∧
    (controlTick 300 ⟨500, 100, true, 3⟩).1.currentDacValue =
      constrain (100 + ratTruncToInt (((500 : ℚ) - 300) * Kp))
        DAC_MIN DAC_MAX ∧
    (controlTick 300 ⟨500, 100, true, 3⟩).1.currentDacValue = 120 := by
  have hadj : ratTruncToInt (((500 : ℚ) - 300) * Kp) = 20 := by
    norm_num [ratTruncToInt, Kp]
  have hdb : MIN_ADJUSTMENT ≤
      ((ratTruncToInt (((500 : ℚ) - 300) * Kp)).natAbs : ℚ) := by
    rw [hadj]; norm_num [MIN_ADJUSTMENT]
  have happ := c5_adjustment_applied ⟨500, 100, true, 3⟩ 300 (by norm_num)
    (by norm_num [MAX_CURRENT_MA]) hdb
  refine ⟨⟨by norm_num, by norm_num [MAX_CURRENT_MA], hdb⟩, happ.1, ?_⟩
  rw [happ.1, hadj]
  norm_num [constrain, DAC_MIN, DAC_MAX]

/-- The command line `"0"` parses to the target value 0. -/
theorem toFloat_zero_cmd : toFloat (trim ("0".toList)) = 0 := by
  simp +decide [toFloat, trim, parseDigits, digitVal]

/-- **C8**: processing the command `0` when already idle
(`targetCurrent_mA = 0`, `currentDacValue = 0`) leaves the state unchanged
(in particular `currentDacValue = 0`), and any subsequent control tick in
the idle state computes no adjustment and changes nothing (it returns the
state untouched and emits nothing). -/
theorem c8_idle_zero_idempotent (s : SysState) (m : ℚ)
    (h1 : s.targetCurrent_mA = 0) (h2 : s.currentDacValue = 0) :
    (processCommand "0".toList s).1 = s ∧
    (processCommand "0".toList s).1.currentDacValue = 0 ∧
    controlTick m ((processCommand "0".toList s).1) =
      ((processCommand "0".toList s).1, []) := by
  have hp : toFloat (trim ("0".toList)) = 0 := toFloat_zero_cmd
  have hstate : (processCommand "0".toList s).1 = s := by
    simp only [processCommand, hp]
    norm_num [MAX_CURRENT_MA]
    cases s
    simp_all
  refine ⟨hstate, by rw [hstate]; exact h2, ?_⟩
  rw [hstate]
  simp only [controlTick, h1]
  norm_num

/-- Witness for C8: the power-up state is idle; the `0` command and a
following tick with measured 50 mA change nothing. -/
theorem c8_idle_zero_idempotent_witness :
    initState.targetCurrent_mA = 0 ∧ initState.currentDacValue = 0 ∧
    ((processCommand "0".toList initState).1 = initState ∧
     (processCommand "0".toList initState).1.currentDacValue = 0 ∧
     controlTick 50 ((processCommand "0".toList initState).1) =
       ((processCommand "0".toList initState).1, [])) :=
  ⟨by decide, by decide,
   c8_idle_zero_idempotent initState 50 (by decide) (by decide)⟩

/-- **C9, counterexample**: a `0` command received while regulating
(target 500 mA, DAC 300) zeroes the actuator **during command processing**:
`currentDacValue` becomes 0 and `analogWrite(DAC_PIN, 0)` is issued by the
command handler itself, before any control tick — refuting the claim that
the zeroing takes effect only at the next control tick and not before. -/
theorem c9_counterexample :
    (processCommand "0".toList ⟨500, 300, true, 7⟩).1.currentDacValue = 0 ∧
    Emit.dacWrite 0 ∈ (processCommand "0".toList ⟨500, 300, true, 7⟩).2 := by
  have hcmd : processCommand "0".toList ⟨500, 300, true, 7⟩ =
      (⟨0, 0, true, 7⟩, [Emit.dacWrite 0, Emit.msgOff]) := by
    simp only [processCommand, toFloat_zero_cmd]
    norm_num [MAX_CURRENT_MA]
  rw [hcmd]
  exact ⟨rfl, by simp⟩

/-- **C9, amended**: a command setting the target to 0 while regulating takes
effect immediately during command processing — the handler sets
`targetCurrent_mA = 0` and `currentDacValue = 0` and writes 0 to the DAC at
command time; the next control tick then finds the target at 0 and performs
no further action (no state change, no output). -/
theorem c9_zero_effective_immediately (s : SysState) (m : ℚ)
    (_ht : s.targetCurrent_mA > 0) :
    (processCommand "0".toList s).1.targetCurrent_mA = 0 ∧
    (processCommand "0".toList s).1.currentDacValue = 0 ∧
    Emit.dacWrite 0 ∈ (processCommand "0".toList s).2 ∧
    controlTick m ((processCommand "0".toList s).1) =
      ((processCommand "0".toList s).1, []) := by
  have hp : toFloat (trim ("0".toList)) = 0 := toFloat_zero_cmd
  have hcmd : processCommand "0".toList s =
      ({ s with targetCurrent_mA := 0, currentDacValue := 0 },
       [Emit.dacWrite 0, Emit.msgOff]) := by
    simp only [processCommand, hp]
    norm_num [MAX_CURRENT_MA]
  rw [hcmd]
  refine ⟨rfl, rfl, by simp, ?_⟩
  simp [controlTick]

/-- Witness for C9 (amended): target 500 mA, DAC 300, then a `0` command and
a tick with measured 50 mA. -/
theorem c9_zero_effective_immediately_witness :
    (500 : ℚ) > 0 ∧
    ((processCommand "0".toList ⟨500, 300, true, 7⟩).1.targetCurrent_mA = 0 ∧
     (processCommand "0".toList ⟨500, 300, true, 7⟩).1.currentDacValue = 0 ∧
     Emit.dacWrite 0 ∈ (processCommand "0".toList ⟨500, 300, true, 7⟩).2 ∧
     controlTick 50 ((processCommand "0".toList ⟨500, 300, true, 7⟩).1) =
       ((processCommand "0".toList ⟨500, 300, true, 7⟩).1, [])) :=
  ⟨by norm_num,
   c9_zero_effective_immediately ⟨500, 300, true, 7⟩ 50 (by norm_num)⟩

/-- **C10**: the telemetry cursor is never reset: on every `loop()` step —
commands (including target 0) and ticks (including safety shutdowns) —
`lineCount` never decreases and `headerPrinted`, once true, stays true;
consequently in a regulating tick reached with `headerPrinted = true` (e.g.
when regulation resumes after an idle period) a header is emitted iff the
total number of data lines printed so far is a multiple of 10. -/
theorem c10_cursor_never_reset (i : Input) (s : SysState) :
    s.lineCount ≤ (step i s).1.lineCount ∧
    (s.headerPrinted = true → (step i s).1.headerPrinted = true) ∧
    (∀ m : ℚ, s.headerPrinted = true → s.targetCurrent_mA > 0 →
      ¬ m > MAX_CURRENT_MA →
      (Emit.header ∈ (controlTick m s).2 ↔ s.lineCount % 10 = 0)) := by
  refine ⟨?_, ?_, ?_⟩
  · cases i with
    | cmd line =>
      simp only [step, processCommand]
      split_ifs <;> simp
    | tick m =>
      simp only [step, controlTick]
      split_ifs <;> simp
  · cases i with
    | cmd line =>
      intro h
      simp only [step, processCommand]
      split_ifs <;> simpa
    | tick m =>
      intro h
      simp only [step, controlTick]
      split_ifs <;> simp_all
  · intro m hhp ht hm
    simp only [controlTick, if_pos ht, if_neg hm, hhp]
    split_ifs with h1 h2 <;> simp_all

/-- Witness for C10: a regulating state with header already printed and 25
data lines emitted; the following tick (measured 50 mA) prints no header
since 25 is not a multiple of 10. -/
theorem c10_cursor_never_reset_witness :
    (25 : ℕ) ≤ (step (Input.tick 50) ⟨200, 10, true, 25⟩).1.lineCount ∧
    (step (Input.tick 50) ⟨200, 10, true, 25⟩).1.headerPrinted = true ∧
    (Emit.header ∈ (controlTick 50 (⟨200, 10, true, 25⟩ : SysState)).2 ↔
      (25 : ℕ) % 10 = 0) :=
  ⟨(c10_cursor_never_reset (Input.tick 50) ⟨200, 10, true, 25⟩).1,
   (c10_cursor_never_reset (Input.tick 50) ⟨200, 10, true, 25⟩).2.1 rfl,
   (c10_cursor_never_reset (Input.tick 50) ⟨200, 10, true, 25⟩).2.2 50 rfl
     (by norm_num) (by norm_num [MAX_CURRENT_MA])⟩

/-- Unfolding of `run` over a cons of inputs. -/
theorem run_cons (s : SysState) (i : Input) (is : List Input) :
    run s (i :: is) =
      ((run (step i s).1 is).1, (step i s).2 ++ (run (step i s).1 is).2) := by
  simp [run]

/-- `teleOf` distributes over append. -/
theorem teleOf_append (l l' : List Emit) :
    teleOf (l ++ l') = teleOf l ++ teleOf l' := by
  simp [teleOf]

/-- Command processing never touches the telemetry cursor and emits no
telemetry events. -/
theorem processCommand_cursor (input : List Char) (s : SysState) :
    (processCommand input s).1.headerPrinted = s.headerPrinted ∧
    (processCommand input s).1.lineCount = s.lineCount ∧
    teleOf (processCommand input s).2 = [] := by
  simp only [processCommand]
  split_ifs <;> simp [teleOf, Emit.isHeader, Emit.isData]

/-- Induction core for C7: from any state whose cursor satisfies the
reachability invariant (`headerPrinted = false` only at `lineCount = 0`),
every run emits a telemetry stream following `TelePattern` at the state's
current data-line count. -/
theorem telePattern_run (inputs : List Input) :
    ∀ s : SysState, (s.headerPrinted = false → s.lineCount = 0) →
      TelePattern s.lineCount (teleOf (run s inputs).2) := by
  induction inputs with
  | nil =>
    intro s _
    simpa [run, teleOf] using TelePattern.nil s.lineCount
  | cons i is ih =>
    intro s hs
    rw [run_cons, teleOf_append]
    cases i with
    | cmd line =>
      have hc := processCommand_cursor line s
      have hinv : (processCommand line s).1.headerPrinted = false →
          (processCommand line s).1.lineCount = 0 := by
        rw [hc.1, hc.2.1]; exact hs
      have h2 := ih (processCommand line s).1 hinv
      rw [hc.2.1] at h2
      simpa only [step, hc.2.2, List.nil_append] using h2
    | tick m =>
      by_cases ht : s.targetCurrent_mA > 0
      · by_cases hm : m > MAX_CURRENT_MA
        · have hct : controlTick m s =
              ({ s with targetCurrent_mA := 0, currentDacValue := 0 },
               [Emit.dacWrite 0, Emit.msgSafety]) := by
            simp only [controlTick, if_pos ht, if_pos hm]
          have h2 := ih ({ s with targetCurrent_mA := 0, currentDacValue := 0 })
            hs
          simpa only [step, hct, teleOf, List.filter, Emit.isHeader,
            Emit.isData, Bool.or_self, List.nil_append] using h2
        · by_cases hhd : ¬ s.headerPrinted ∨ s.lineCount % 10 = 0
          · -- header emitted before this data line
            have hk : s.lineCount % 10 = 0 := by
              rcases hhd with h | h
              · rw [hs (by simpa using h)]
              · exact h
            by_cases hdb : MIN_ADJUSTMENT ≤
                ((ratTruncToInt ((s.targetCurrent_mA - m) * Kp)).natAbs : ℚ)
            · have hct : controlTick m s =
                  ({ s with
                      currentDacValue :=
                        constrain
                          (s.currentDacValue +
                            ratTruncToInt ((s.targetCurrent_mA - m) * Kp))
                          DAC_MIN DAC_MAX,
                      headerPrinted := true,
                      lineCount := s.lineCount + 1 },
                   [Emit.dacWrite
                      (constrain
                        (s.currentDacValue +
                          ratTruncToInt ((s.targetCurrent_mA - m) * Kp))
                        DAC_MIN DAC_MAX),
                    Emit.header,
                    Emit.dataLine
                      (constrain
                        (s.currentDacValue +
                          ratTruncToInt ((s.targetCurrent_mA - m) * Kp))
                        DAC_MIN DAC_MAX) m]) := by
                simp only [controlTick, if_pos ht, if_neg hm, if_pos hdb,
                  if_pos hhd]
                rfl
              have h2 := ih (controlTick m s).1 (by rw [hct]; intro h; simp at h)
              simp only [step]
              rw [hct] at h2 ⊢
              simp only [teleOf, List.filter, Emit.isHeader, Emit.isData,
                Bool.or_self] at h2 ⊢
              exact TelePattern.withHeader _ _ _ _ hk h2
            · have hct : controlTick m s =
                  ({ s with
                      currentDacValue := s.currentDacValue,
                      headerPrinted := true,
                      lineCount := s.lineCount + 1 },
                   [Emit.header, Emit.dataLine s.currentDacValue m]) := by
                simp only [controlTick, if_pos ht, if_neg hm, if_neg hdb,
                  if_pos hhd]
                rfl
              have h2 := ih (controlTick m s).1 (by rw [hct]; intro h; simp at h)
              simp only [step]
              rw [hct] at h2 ⊢
              simp only [teleOf, List.filter, Emit.isHeader, Emit.isData,
                Bool.or_self] at h2 ⊢
              exact TelePattern.withHeader _ _ _ _ hk h2
          · -- no header: headerPrinted already true and lineCount % 10 ≠ 0
            push_neg at hhd
            have hk : s.lineCount % 10 ≠ 0 := hhd.2
            have hhp : s.headerPrinted = true := by
              simpa using hhd.1
            by_cases hdb : MIN_ADJUSTMENT ≤
                ((ratTruncToInt ((s.targetCurrent_mA - m) * Kp)).natAbs : ℚ)
            · have hct : controlTick m s =
                  ({ s with
                      currentDacValue :=
                        constrain
                          (s.currentDacValue +
                            ratTruncToInt ((s.targetCurrent_mA - m) * Kp))
                          DAC_MIN DAC_MAX,
                      headerPrinted := s.headerPrinted,
                      lineCount := s.lineCount + 1 },
                   [Emit.dacWrite
                      (constrain
                        (s.currentDacValue +
                          ratTruncToInt ((s.targetCurrent_mA - m) * Kp))
                        DAC_MIN DAC_MAX),
                    Emit.dataLine
                      (constrain
                        (s.currentDacValue +
                          ratTruncToInt ((s.targetCurrent_mA - m) * Kp))
                        DAC_MIN DAC_MAX) m]) := by
                simp only [controlTick, if_pos ht, if_neg hm, if_pos hdb]
                rw [if_neg (by push_neg; exact hhd)]
                rfl
              have h2 := ih (controlTick m s).1
                (by rw [hct]; intro h; simp only at h; rw [hhp] at h; simp at h)
              simp only [step]
              rw [hct] at h2 ⊢
              simp only [teleOf, List.filter, Emit.isHeader, Emit.isData,
                Bool.or_self] at h2 ⊢
              exact TelePattern.noHeader _ _ _ _ hk h2
            · have hct : controlTick m s =
                  ({ s with
                      currentDacValue := s.currentDacValue,
                      headerPrinted := s.headerPrinted,
                      lineCount := s.lineCount + 1 },
                   [Emit.dataLine s.currentDacValue m]) := by
                simp only [controlTick, if_pos ht, if_neg hm, if_neg hdb]
                rw [if_neg (by push_neg; exact hhd)]
                rfl
              have h2 := ih (controlTick m s).1
                (by rw [hct]; intro h; simp only at h; rw [hhp] at h; simp at h)
              simp only [step]
              rw [hct] at h2 ⊢
              simp only [teleOf, List.filter, Emit.isHeader, Emit.isData,
                Bool.or_self] at h2 ⊢
              exact TelePattern.noHeader _ _ _ _ hk h2
      · have hct : controlTick m s = (s, []) := by
          simp only [controlTick, if_neg ht]
        have h2 := ih s hs
        simpa only [step, hct, teleOf, List.filter, List.nil_append] using h2

/-- **C7**: over every possible run from power-up, the telemetry stream
(headers and data lines) follows the 10-line header discipline: the very
first data line is preceded by a header, and a header is emitted immediately
before a data line exactly when the data line's index is a multiple of 10 —
i.e. exactly 10 data lines lie between consecutive headers. -/
theorem c7_header_discipline (inputs : List Input) :
    TelePattern 0 (teleOf (run initState inputs).2) := by
  have h := telePattern_run inputs initState (fun _ => rfl)
  simpa [initState] using h

/-- For nonnegative arguments the C truncation is the floor. -/
theorem ratTruncToInt_of_nonneg {q : ℚ} (h : 0 ≤ q) :
    ratTruncToInt q = ⌊q⌋ := by
  simp [ratTruncToInt, h]

/-- Truncation of a nonnegative rational is nonnegative. -/
theorem ratTruncToInt_nonneg {q : ℚ} (h : 0 ≤ q) : 0 ≤ ratTruncToInt q := by
  rw [ratTruncToInt_of_nonneg h]
  exact Int.floor_nonneg.mpr h

/-- Truncation of a nonnegative rational is below the rational. -/
theorem ratTruncToInt_le {q : ℚ} (h : 0 ≤ q) : (ratTruncToInt q : ℚ) ≤ q := by
  rw [ratTruncToInt_of_nonneg h]
  exact Int.floor_le q

/-- For a nonnegative argument, truncation is zero exactly below 1. -/
theorem ratTruncToInt_eq_zero_iff {q : ℚ} (h : 0 ≤ q) :
    ratTruncToInt q = 0 ↔ q < 1 := by
  rw [ratTruncToInt_of_nonneg h, Int.floor_eq_zero_iff]
  constructor
  · intro hq; exact hq.2
  · intro hq; exact ⟨h, hq⟩

/-- The sketch's dead-band test `abs(adjustment) >= MIN_ADJUSTMENT` on an
integer adjustment holds exactly when the adjustment is nonzero. -/
theorem deadband_iff (a : ℤ) :
    MIN_ADJUSTMENT ≤ ((a.natAbs : ℕ) : ℚ) ↔ a ≠ 0 := by
  rw [MIN_ADJUSTMENT]
  constructor
  · intro h h0
    subst h0
    norm_num at h
  · intro h
    have h1 : 1 ≤ a.natAbs := Int.natAbs_pos.mpr h
    exact_mod_cast h1

/-- One tick of the steep example sensor from DAC 0: the proportional step
overshoots to DAC 10 (adjustment `(int)((100 − 0) * 0.1) = 10`). -/
theorem exStep_zero (s : SysState) (h1 : s.targetCurrent_mA = 100)
    (h2 : s.currentDacValue = 0) :
    (controlTick (exSensor s.currentDacValue) s).1.targetCurrent_mA = 100 ∧
    (controlTick (exSensor s.currentDacValue) s).1.currentDacValue = 10 := by
  have hm : exSensor s.currentDacValue = 0 := by
    rw [h2]; norm_num [exSensor]
  have hadj : ratTruncToInt
      ((s.targetCurrent_mA - exSensor s.currentDacValue) * Kp) = 10 := by
    rw [h1, hm]; norm_num [ratTruncToInt, Kp]
  simp only [controlTick, h1, hm, hadj, h2]
  norm_num [exSensor, ratTruncToInt, Kp, MAX_CURRENT_MA, MIN_ADJUSTMENT,
    constrain, DAC_MIN, DAC_MAX]

/-- One tick of the steep example sensor from DAC 10: measured 250 mA, so the
adjustment `(int)((100 − 250) * 0.1) = −15` clamps the DAC back to 0. -/
theorem exStep_ten (s : SysState) (h1 : s.targetCurrent_mA = 100)
    (h2 : s.currentDacValue = 10) :
    (controlTick (exSensor s.currentDacValue) s).1.targetCurrent_mA = 100 ∧
    (controlTick (exSensor s.currentDacValue) s).1.currentDacValue = 0 := by
  have hm : exSensor s.currentDacValue = 250 := by
    rw [h2]; norm_num [exSensor]
  have hadj : ratTruncToInt
      ((s.targetCurrent_mA - exSensor s.currentDacValue) * Kp) = -15 := by
    rw [h1, hm]; norm_num [ratTruncToInt, Kp]
  simp only [controlTick, h1, hm, hadj, h2]
  norm_num [exSensor, ratTruncToInt, Kp, MAX_CURRENT_MA, MIN_ADJUSTMENT,
    constrain, DAC_MIN, DAC_MAX]

/-- **C6, counterexample**: with the monotonically increasing sensor model
`f(d) = 25·d` and the valid target 100 mA (0 ≤ 100 ≤ MAX_CURRENT_MA), the
DAC value never stops changing: it oscillates 0, 10, 0, 10, … for ever (the
truncated proportional step overshoots each way), so no tick count `N` makes
`currentDacValue` stabilise afterwards, let alone within the dead-band
steady-state bound. -/
theorem c6_counterexample :
    ¬ ∃ N : ℕ, ∀ n : ℕ, N ≤ n →
      (sensorRun exSensor exStart n).currentDacValue =
        (sensorRun exSensor exStart N).currentDacValue ∧
      ratTruncToInt ((exStart.targetCurrent_mA -
        exSensor ((sensorRun exSensor exStart n).currentDacValue)) * Kp) =
        0 := by
  rintro ⟨N, hN⟩
  have key : ∀ n : ℕ,
      (sensorRun exSensor exStart n).targetCurrent_mA = 100 ∧
      (sensorRun exSensor exStart n).currentDacValue =
        (if n % 2 = 0 then (0 : ℤ) else 10) := by
    intro n
    induction n with
    | zero => exact ⟨rfl, rfl⟩
    | succ k ihk =>
      by_cases hk : k % 2 = 0
      · have h2 : (sensorRun exSensor exStart k).currentDacValue = 0 := by
          rw [ihk.2, if_pos hk]
        have hstep := exStep_zero (sensorRun exSensor exStart k) ihk.1 h2
        have hk1 : ¬ (k + 1) % 2 = 0 := by omega
        exact ⟨hstep.1, by rw [show sensorRun exSensor exStart (k + 1) =
          (controlTick (exSensor ((sensorRun exSensor exStart k).currentDacValue))
            (sensorRun exSensor exStart k)).1 from rfl, hstep.2, if_neg hk1]⟩
      · have h2 : (sensorRun exSensor exStart k).currentDacValue = 10 := by
          rw [ihk.2, if_neg hk]
        have hstep := exStep_ten (sensorRun exSensor exStart k) ihk.1 h2
        have hk1 : (k + 1) % 2 = 0 := by omega
        exact ⟨hstep.1, by rw [show sensorRun exSensor exStart (k + 1) =
          (controlTick (exSensor ((sensorRun exSensor exStart k).currentDacValue))
            (sensorRun exSensor exStart k)).1 from rfl, hstep.2, if_pos hk1]⟩
  have hEq := (hN (N + 1) (Nat.le_succ N)).1
  have hN0 := (key N).2
  have hN1 := (key (N + 1)).2
  by_cases hp : N % 2 = 0
  · rw [hN0, if_pos hp] at hEq
    rw [hN1, if_neg (by omega)] at hEq
    norm_num at hEq
  · rw [hN0, if_neg hp] at hEq
    rw [hN1, if_pos (by omega)] at hEq
    norm_num at hEq

/-- The dead-band-to-gain ratio: one DAC unit of dead-band at gain 0.1
corresponds to 10 mA of steady-state error. -/
theorem minAdjDivKp : MIN_ADJUSTMENT / Kp = 10 := by
  norm_num [MIN_ADJUSTMENT, Kp]

/-- Iterating the per-unit slope bound of a sensor model. -/
theorem slope_iterate (f : ℤ → ℚ)
    (hslope : ∀ d : ℤ, f (d + 1) ≤ f d + MIN_ADJUSTMENT / Kp) (d : ℤ) :
    ∀ k : ℕ, f (d + (k : ℤ)) ≤ f d + (MIN_ADJUSTMENT / Kp) * (k : ℚ) := by
  intro k
  induction k with
  | zero => simp
  | succ n ihn =>
    have h1 := hslope (d + (n : ℤ))
    have heq : d + ((n : ℕ) + 1 : ℕ) = (d + (n : ℤ)) + 1 := by push_cast; ring
    rw [heq]
    have h2 : f ((d + (n : ℤ)) + 1) ≤ f d + (MIN_ADJUSTMENT / Kp) * (n : ℚ) +
        MIN_ADJUSTMENT / Kp := by linarith
    calc f ((d + (n : ℤ)) + 1)
        ≤ f d + (MIN_ADJUSTMENT / Kp) * (n : ℚ) + MIN_ADJUSTMENT / Kp := h2
      _ = f d + (MIN_ADJUSTMENT / Kp) * (((n : ℕ) + 1 : ℕ) : ℚ) := by
          push_cast; ring

/-- One regulating control tick against a sensor model `f` that is monotone,
rises at most `MIN_ADJUSTMENT / Kp` (= 10 mA) per DAC count, and can reach
the target inside the DAC range: the target is preserved, the DAC value
follows the truncated proportional update, stays in range, never decreases
while the measured current is below target, the measured current never
overshoots the target, and the DAC value is a fixed point of the tick
exactly when the truncated adjustment is 0. -/
theorem regStep (f : ℤ → ℚ) (t : ℚ) (s : SysState)
    (hmono : ∀ d e : ℤ, d ≤ e → f d ≤ f e)
    (hslope : ∀ d : ℤ, f (d + 1) ≤ f d + MIN_ADJUSTMENT / Kp)
    (hreach : ∃ dstar : ℤ, DAC_MIN ≤ dstar ∧ dstar ≤ DAC_MAX ∧ t ≤ f dstar)
    (htpos : 0 < t) (htmax : t ≤ MAX_CURRENT_MA)
    (hts : s.targetCurrent_mA = t)
    (hd0 : DAC_MIN ≤ s.currentDacValue) (hd1 : s.currentDacValue ≤ DAC_MAX)
    (hfb : f s.currentDacValue ≤ t) :
    (controlTick (f s.currentDacValue) s).1.targetCurrent_mA = t ∧
    (controlTick (f s.currentDacValue) s).1.currentDacValue =
      (if ratTruncToInt ((t - f s.currentDacValue) * Kp) = 0 then
        s.currentDacValue
       else
        constrain
          (s.currentDacValue + ratTruncToInt ((t - f s.currentDacValue) * Kp))
          DAC_MIN DAC_MAX) ∧
    DAC_MIN ≤ (controlTick (f s.currentDacValue) s).1.currentDacValue ∧
    (controlTick (f s.currentDacValue) s).1.currentDacValue ≤ DAC_MAX ∧
    s.currentDacValue ≤
      (controlTick (f s.currentDacValue) s).1.currentDacValue ∧
    f ((controlTick (f s.currentDacValue) s).1.currentDacValue) ≤ t ∧
    ((controlTick (f s.currentDacValue) s).1.currentDacValue =
        s.currentDacValue →
      ratTruncToInt ((t - f s.currentDacValue) * Kp) = 0) := by
  have htpos' : s.targetCurrent_mA > 0 := by rw [hts]; exact htpos
  have hns : ¬ f s.currentDacValue > MAX_CURRENT_MA :=
    not_lt.mpr (hfb.trans htmax)
  have he : 0 ≤ t - f s.currentDacValue := by linarith
  have heKp : 0 ≤ (t - f s.currentDacValue) * Kp := by
    have : (0 : ℚ) < Kp := by norm_num [Kp]
    positivity
  have hadj0 : 0 ≤ ratTruncToInt ((t - f s.currentDacValue) * Kp) :=
    ratTruncToInt_nonneg heKp
  have hadjle : ((ratTruncToInt ((t - f s.currentDacValue) * Kp) : ℤ) : ℚ) ≤
      (t - f s.currentDacValue) * Kp := ratTruncToInt_le heKp
  have h10adj : (10 : ℚ) * (ratTruncToInt ((t - f s.currentDacValue) * Kp)) ≤
      t - f s.currentDacValue := by
    have hmul := mul_le_mul_of_nonneg_left hadjle
      (by norm_num : (0 : ℚ) ≤ 10)
    have hre : (10 : ℚ) * ((t - f s.currentDacValue) * Kp) =
        t - f s.currentDacValue := by rw [Kp]; ring
    linarith
  have htgt : (controlTick (f s.currentDacValue) s).1.targetCurrent_mA = t := by
    simp only [controlTick, hts, if_pos htpos, if_neg hns]
  have hctd : (controlTick (f s.currentDacValue) s).1.currentDacValue =
      (if MIN_ADJUSTMENT ≤
          ((ratTruncToInt ((t - f s.currentDacValue) * Kp)).natAbs : ℚ) then
        constrain
          (s.currentDacValue + ratTruncToInt ((t - f s.currentDacValue) * Kp))
          DAC_MIN DAC_MAX
       else s.currentDacValue) := by
    simp only [controlTick, hts, if_pos htpos, if_neg hns]
    split_ifs <;> rfl
  have hctd' : (controlTick (f s.currentDacValue) s).1.currentDacValue =
      (if ratTruncToInt ((t - f s.currentDacValue) * Kp) = 0 then
        s.currentDacValue
       else
        constrain
          (s.currentDacValue + ratTruncToInt ((t - f s.currentDacValue) * Kp))
          DAC_MIN DAC_MAX) := by
    rw [hctd]
    by_cases h0 : ratTruncToInt ((t - f s.currentDacValue) * Kp) = 0
    · rw [if_neg (by rw [deadband_iff]; simp [h0]), if_pos h0]
    · rw [if_pos ((deadband_iff _).mpr h0), if_neg h0]
  refine ⟨htgt, hctd', ?_⟩
  by_cases h0 : ratTruncToInt ((t - f s.currentDacValue) * Kp) = 0
  · rw [hctd', if_pos h0]
    exact ⟨hd0, hd1, le_refl _, hfb, fun _ => h0⟩
  · have hadj1 : 1 ≤ ratTruncToInt ((t - f s.currentDacValue) * Kp) := by
      omega
    rw [hctd', if_neg h0]
    have hup : constrain
        (s.currentDacValue + ratTruncToInt ((t - f s.currentDacValue) * Kp))
        DAC_MIN DAC_MAX ≤
        s.currentDacValue + ratTruncToInt ((t - f s.currentDacValue) * Kp) := by
      simp only [constrain, DAC_MIN, DAC_MAX] at *
      split_ifs <;> omega
    have hfle : f (constrain
        (s.currentDacValue + ratTruncToInt ((t - f s.currentDacValue) * Kp))
        DAC_MIN DAC_MAX) ≤ t := by
      have hm1 := hmono _ _ hup
      have hsl := slope_iterate f hslope s.currentDacValue
        (ratTruncToInt ((t - f s.currentDacValue) * Kp)).toNat
      rw [Int.toNat_of_nonneg hadj0, minAdjDivKp] at hsl
      have hc : (((ratTruncToInt ((t - f s.currentDacValue) * Kp)).toNat :
          ℕ) : ℚ) = ((ratTruncToInt ((t - f s.currentDacValue) * Kp) : ℤ) :
          ℚ) := by
        rw [← Int.cast_natCast, Int.toNat_of_nonneg hadj0]
      rw [hc] at hsl
      linarith
    refine ⟨?_, ?_, ?_, hfle, ?_⟩
    · simp only [constrain, DAC_MIN, DAC_MAX] at *
      split_ifs <;> omega
    · simp only [constrain, DAC_MIN, DAC_MAX] at *
      split_ifs <;> omega
    · simp only [constrain, DAC_MIN, DAC_MAX] at *
      split_ifs <;> omega
    · intro hfix
      exfalso
      simp only [constrain, DAC_MIN, DAC_MAX] at hfix hd0 hd1
      by_cases htop : s.currentDacValue = 1023
      · obtain ⟨dstar, hs0, hs1, hs2⟩ := hreach
        have hge : t ≤ f s.currentDacValue := by
          have := hmono dstar s.currentDacValue
            (by rw [htop]; exact hs1)
          linarith
        have hfeq : f s.currentDacValue = t := le_antisymm hfb hge
        have : ratTruncToInt ((t - f s.currentDacValue) * Kp) = 0 := by
          rw [hfeq]
          simp [ratTruncToInt]
        exact h0 this
      · split_ifs at hfix <;> omega

/-- **C6, amended**: the convergence property holds once the monotone sensor
model is additionally required to rise at most `MIN_ADJUSTMENT / Kp`
(= 10 mA) per DAC count — the counterexample `f(d) = 25·d` shows the claim
false for faster-rising monotone models, whose truncated proportional step
overshoots and oscillates for ever.  For such an `f` (nonnegative at DAC 0),
a valid target `0 ≤ t ≤ MAX_CURRENT_MA` reachable within the DAC range and
started from a state measuring at or below target: after sufficiently many
control ticks `currentDacValue` stops changing, and thereafter
`|f(currentDacValue) − t| · Kp` truncates below `MIN_ADJUSTMENT` (the
dead-band steady-state bound). -/
theorem c6_amended_convergence (f : ℤ → ℚ) (s0 : SysState)
    (hmono : ∀ d e : ℤ, d ≤ e → f d ≤ f e)
    (hslope : ∀ d : ℤ, f (d + 1) ≤ f d + MIN_ADJUSTMENT / Kp)
    (hf0 : 0 ≤ f 0)
    (ht0 : 0 ≤ s0.targetCurrent_mA)
    (htmax : s0.targetCurrent_mA ≤ MAX_CURRENT_MA)
    (hd0 : DAC_MIN ≤ s0.currentDacValue) (hd1 : s0.currentDacValue ≤ DAC_MAX)
    (hbelow : f s0.currentDacValue ≤ s0.targetCurrent_mA)
    (hreach : ∃ dstar : ℤ, DAC_MIN ≤ dstar ∧ dstar ≤ DAC_MAX ∧
      s0.targetCurrent_mA ≤ f dstar) :
    ∃ N : ℕ, ∀ n : ℕ, N ≤ n →
      (sensorRun f s0 n).currentDacValue =
        (sensorRun f s0 N).currentDacValue ∧
      ratTruncToInt ((s0.targetCurrent_mA -
        f ((sensorRun f s0 n).currentDacValue)) * Kp) = 0 := by
  by_cases htp : 0 < s0.targetCurrent_mA
  · -- regulating: the DAC climbs monotonically and must stop
    have hI : ∀ n : ℕ,
        (sensorRun f s0 n).targetCurrent_mA = s0.targetCurrent_mA ∧
        DAC_MIN ≤ (sensorRun f s0 n).currentDacValue ∧
        (sensorRun f s0 n).currentDacValue ≤ DAC_MAX ∧
        f ((sensorRun f s0 n).currentDacValue) ≤ s0.targetCurrent_mA := by
      intro n
      induction n with
      | zero => exact ⟨rfl, hd0, hd1, hbelow⟩
      | succ k ihk =>
        have hr := regStep f s0.targetCurrent_mA (sensorRun f s0 k) hmono
          hslope hreach htp htmax ihk.1 ihk.2.1 ihk.2.2.1 ihk.2.2.2
        exact ⟨hr.1, hr.2.2.1, hr.2.2.2.1, hr.2.2.2.2.2.1⟩
    have hR := fun n : ℕ => regStep f s0.targetCurrent_mA (sensorRun f s0 n)
      hmono hslope hreach htp htmax (hI n).1 (hI n).2.1 (hI n).2.2.1
      (hI n).2.2.2
    have hGa : ∀ n : ℕ, (sensorRun f s0 (n + 1)).currentDacValue =
        (if ratTruncToInt ((s0.targetCurrent_mA -
            f ((sensorRun f s0 n).currentDacValue)) * Kp) = 0 then
          (sensorRun f s0 n).currentDacValue
         else
          constrain ((sensorRun f s0 n).currentDacValue +
            ratTruncToInt ((s0.targetCurrent_mA -
              f ((sensorRun f s0 n).currentDacValue)) * Kp)) DAC_MIN DAC_MAX) :=
      fun n => (hR n).2.1
    have hmono_a : ∀ n : ℕ, (sensorRun f s0 n).currentDacValue ≤
        (sensorRun f s0 (n + 1)).currentDacValue :=
      fun n => (hR n).2.2.2.2.1
    have hfix : ∀ n : ℕ, (sensorRun f s0 (n + 1)).currentDacValue =
        (sensorRun f s0 n).currentDacValue →
        ratTruncToInt ((s0.targetCurrent_mA -
          f ((sensorRun f s0 n).currentDacValue)) * Kp) = 0 :=
      fun n => (hR n).2.2.2.2.2.2
    have hgrow : ∀ n : ℕ,
        (∀ k : ℕ, k < n → (sensorRun f s0 (k + 1)).currentDacValue ≠
          (sensorRun f s0 k).currentDacValue) →
        (sensorRun f s0 0).currentDacValue + (n : ℤ) ≤
          (sensorRun f s0 n).currentDacValue := by
      intro n
      induction n with
      | zero => simp
      | succ m ihm =>
        intro h
        have h1 := ihm (fun k hk => h k (by omega))
        have h2 := h m (by omega)
        have h3 := hmono_a m
        omega
    have hex : ∃ k : ℕ, (sensorRun f s0 (k + 1)).currentDacValue =
        (sensorRun f s0 k).currentDacValue := by
      by_contra hc
      push_neg at hc
      have hg := hgrow 1024 (fun k _ => hc k)
      have hb := (hI 1024).2.2.1
      have hb0 := hd0
      simp only [DAC_MIN, DAC_MAX] at hb hb0
      have : (sensorRun f s0 0).currentDacValue = s0.currentDacValue := rfl
      omega
    obtain ⟨N, hNfix⟩ := hex
    have hconst : ∀ j : ℕ, (sensorRun f s0 (N + j)).currentDacValue =
        (sensorRun f s0 N).currentDacValue := by
      intro j
      induction j with
      | zero => rfl
      | succ i ihi =>
        have hstep := hGa (N + i)
        rw [ihi] at hstep
        have h2 := hGa N
        rw [show N + (i + 1) = (N + i) + 1 from rfl, hstep, ← h2, hNfix]
    have htr : ratTruncToInt ((s0.targetCurrent_mA -
        f ((sensorRun f s0 N).currentDacValue)) * Kp) = 0 := hfix N hNfix
    refine ⟨N, fun n hn => ?_⟩
    obtain ⟨j, rfl⟩ : ∃ j : ℕ, n = N + j := ⟨n - N, by omega⟩
    exact ⟨hconst j, by rw [hconst j]; exact htr⟩
  · -- idle: target 0, every tick is a no-op
    have ht : s0.targetCurrent_mA = 0 := le_antisymm (not_lt.mp htp) ht0
    have hconst : ∀ n : ℕ, sensorRun f s0 n = s0 := by
      intro n
      induction n with
      | zero => rfl
      | succ k ihk =>
        show (controlTick (f ((sensorRun f s0 k).currentDacValue))
          (sensorRun f s0 k)).1 = s0
        rw [ihk]
        simp [controlTick, ht]
    have hfd0 : f s0.currentDacValue = 0 := by
      have h1 : f 0 ≤ f s0.currentDacValue := by
        apply hmono
        simpa [DAC_MIN] using hd0
      have h2 := hbelow
      rw [ht] at h2
      linarith
    refine ⟨0, fun n _ => ?_⟩
    rw [hconst n, hconst 0, ht, hfd0]
    exact ⟨rfl, by simp [ratTruncToInt]⟩

/-- Witness for C6 (amended): sensor model `f(d) = d` (1 mA per DAC count,
within the 10 mA/count slope bound), target 500 mA from DAC 0: the DAC
value eventually stops changing with the truncated adjustment at 0. -/
theorem c6_amended_convergence_witness :
    (∀ d e : ℤ, d ≤ e → ((d : ℚ)) ≤ ((e : ℚ))) ∧
    (∃ N : ℕ, ∀ n : ℕ, N ≤ n →
      (sensorRun (fun d : ℤ => (d : ℚ))
          ⟨500, 0, true, 1⟩ n).currentDacValue =
        (sensorRun (fun d : ℤ => (d : ℚ))
          ⟨500, 0, true, 1⟩ N).currentDacValue ∧
      ratTruncToInt (((⟨500, 0, true, 1⟩ : SysState).targetCurrent_mA -
        ((sensorRun (fun d : ℤ => (d : ℚ))
          ⟨500, 0, true, 1⟩ n).currentDacValue : ℚ)) * Kp) = 0) :=
  ⟨fun d e h => by exact_mod_cast h,
   c6_amended_convergence (fun d : ℤ => (d : ℚ)) ⟨500, 0, true, 1⟩
     (fun d e h => show ((d : ℚ)) ≤ ((e : ℚ)) by exact_mod_cast h)
     (fun d => show ((d + 1 : ℤ) : ℚ) ≤ ((d : ℤ) : ℚ) + MIN_ADJUSTMENT / Kp by
       rw [minAdjDivKp]; push_cast; linarith)
     (show (0 : ℚ) ≤ ((0 : ℤ) : ℚ) by norm_num)
     (show (0 : ℚ) ≤ 500 by norm_num)
     (show (500 : ℚ) ≤ MAX_CURRENT_MA by norm_num [MAX_CURRENT_MA])
     (show DAC_MIN ≤ (0 : ℤ) by norm_num [DAC_MIN])
     (show (0 : ℤ) ≤ DAC_MAX by norm_num [DAC_MAX])
     (show ((0 : ℤ) : ℚ) ≤ 500 by norm_num)
     ⟨500, by norm_num [DAC_MIN], by norm_num [DAC_MAX],
       show (500 : ℚ) ≤ ((500 : ℤ) : ℚ) by norm_num⟩⟩
